import Mathlib

/-!
Shallow embedding of the cita-database key-value storage layer.

The embedding follows the source files:
  - src/database.rs : DataCategory, the error taxonomy
  - src/columns.rs  : map_columns (category to column-family name)
  - src/memorydb.rs : MemoryDB over a HashMap, gen_key prefixing
  - src/rocksdb.rs  : RocksDB wrapper (open, close, restore, get/insert/remove,
                      batch operations, iterator, get_column, path_exists)

Byte strings are lists of naturals; the in-memory HashMap and the engine column
families are association lists where lookup takes the first matching entry and
insertion replaces any previous entry for the key.  The external collaborators
(the filesystem and the rocksdb engine) are modelled explicitly: a filesystem is
a finite map from directory paths to whole database datasets (a rocksdb data
directory is never empty on disk, so renaming onto any existing modelled
directory fails with ENOTEMPTY, and renaming a path onto itself succeeds as in
POSIX), and the one engine behaviour outside this layer's control — whether
rocksdb::DB::open succeeds — is an explicit environment oracle.
Rust panics (unwrap on Err) are modelled as distinguished outcome constructors.
-/

deriving instance DecidableEq for Except

/-- Opaque byte sequences (Vec of u8 in the source). -/
abbrev Bytes := List Nat

/-- The bytes of an ASCII string literal (b-string literals in the source). -/
def strB (s : String) : Bytes :=
  s.toList.map Char.toNat

/-- src/database.rs: the category of stored data. -/
inductive DataCategory where
  | State
  | Headers
  | Bodies
  | Extra
  | Trace
  | AccountBloom
  | Other
  deriving DecidableEq, Repr

/-- src/error.rs: the closed error taxonomy. -/
inductive DatabaseError where
  | NotFound
  | InvalidData
  | Internal (detail : String)
  deriving DecidableEq, Repr

/-- src/columns.rs map_columns: category to rocksdb column-family name. -/
def map_columns : DataCategory → String
  | .State => "col0"
  | .Headers => "col1"
  | .Bodies => "col2"
  | .Extra => "col3"
  | .Trace => "col4"
  | .AccountBloom => "col5"
  | .Other => "col6"

/-- One key space: an association list standing for a HashMap or a rocksdb
column family.  Lookup returns the first matching entry; insertion replaces. -/
abbrev MemStorage := List (Bytes × Bytes)

/-- HashMap::get / rocksdb get on one key space. -/
def mapGet (s : MemStorage) (k : Bytes) : Option Bytes :=
  (s.find? (fun p => p.1 == k)).map (fun p => p.2)

/-- HashMap::remove / rocksdb delete on one key space. -/
def mapRemove (s : MemStorage) (k : Bytes) : MemStorage :=
  s.filter (fun p => !(p.1 == k))

/-- HashMap::insert / rocksdb put on one key space (replaces the old value). -/
def mapInsert (s : MemStorage) (k v : Bytes) : MemStorage :=
  (k, v) :: mapRemove s k

/-- HashMap::contains_key. -/
def mapContains (s : MemStorage) (k : Bytes) : Bool :=
  (s.find? (fun p => p.1 == k)).isSome

/-- src/memorydb.rs gen_key: category namespacing by key prefixing. -/
def gen_key (category : Option DataCategory) (key : Bytes) : Bytes :=
  match category with
  | some c =>
    match c with
    | .State => strB "state-" ++ key
    | .Headers => strB "headers-" ++ key
    | .Bodies => strB "bodies-" ++ key
    | .Extra => strB "extra-" ++ key
    | .Trace => strB "trace-" ++ key
    | .AccountBloom => strB "account-bloom-" ++ key
    | .Other => strB "other-" ++ key
  | none => key

/-- src/memorydb.rs gen_keys. -/
def gen_keys (category : Option DataCategory) (keys : List Bytes) : List Bytes :=
  keys.map (fun key => gen_key category key)

/-- Result of a batch write on the in-memory backend: the returned
Result value together with the storage after the call. -/
structure MemBatchResult where
  result : Except DatabaseError Unit
  storage : MemStorage
  deriving Repr

/-- MemoryDB::get (the rwlock never fails in the model, the lock is only
poisoned by a panicking writer, which the modelled code has none of). -/
def MemoryDB.get (s : MemStorage) (category : Option DataCategory) (key : Bytes) :
    Except DatabaseError (Option Bytes) :=
  .ok (mapGet s (gen_key category key))

/-- MemoryDB::get_batch. -/
def MemoryDB.get_batch (s : MemStorage) (category : Option DataCategory)
    (keys : List Bytes) : Except DatabaseError (List (Option Bytes)) :=
  .ok ((gen_keys category keys).map (fun key => mapGet s key))

/-- MemoryDB::insert; the payload is the storage after the call. -/
def MemoryDB.insert (s : MemStorage) (category : Option DataCategory)
    (key value : Bytes) : Except DatabaseError MemStorage :=
  .ok (mapInsert s (gen_key category key) value)

/-- MemoryDB::insert_batch: prefix the keys, reject mismatched lengths,
otherwise insert pairwise. -/
def MemoryDB.insert_batch (s : MemStorage) (category : Option DataCategory)
    (keys values : List Bytes) : MemBatchResult :=
  let ks := gen_keys category keys
  if ks.length ≠ values.length then
    ⟨.error .InvalidData, s⟩
  else
    ⟨.ok (), (ks.zip values).foldl (fun st p => mapInsert st p.1 p.2) s⟩

/-- MemoryDB::contains. -/
def MemoryDB.contains (s : MemStorage) (category : Option DataCategory)
    (key : Bytes) : Except DatabaseError Bool :=
  .ok (mapContains s (gen_key category key))

/-- MemoryDB::remove; the payload is the storage after the call. -/
def MemoryDB.remove (s : MemStorage) (category : Option DataCategory)
    (key : Bytes) : Except DatabaseError MemStorage :=
  .ok (mapRemove s (gen_key category key))

/-- MemoryDB::remove_batch; the payload is the storage after the call. -/
def MemoryDB.remove_batch (s : MemStorage) (category : Option DataCategory)
    (keys : List Bytes) : Except DatabaseError MemStorage :=
  .ok ((gen_keys category keys).foldl (fun st key => mapRemove st key) s)

example : MemoryDB.get [] none [1, 2] = .ok none := by decide

example :
    MemoryDB.insert [] (some .State) [1] [9] =
      .ok [(strB "state-" ++ [1], [9])] := by decide

example :
    (MemoryDB.insert_batch [] none [[1]] []).result = .error .InvalidData := by decide

/-- src/config.rs Compaction (tuning fields, opaque pass-through to the engine). -/
structure Compaction where
  target_file_size_base : Nat
  max_bytes_for_level_multiplier : Option Float
  max_background_compactions : Option Int

/-- src/config.rs Config. -/
structure Config where
  wal : Bool
  category_num : Option Nat
  max_open_files : Int
  compaction : Compaction
  increase_parallelism : Option Int

/-- src/config.rs Compaction::default. -/
def Compaction.defaultValue : Compaction :=
  ⟨64 * 1024 * 1024, none, none⟩

/-- src/config.rs Config::default. -/
def Config.defaultValue : Config :=
  ⟨true, none, 512, Compaction.defaultValue, none⟩

/-- src/config.rs Config::with_category_num. -/
def Config.with_category_num (category_num : Option Nat) : Config :=
  { Config.defaultValue with category_num := category_num }

/-- The state behind a live rocksdb handle: the default (un-namespaced) key
space plus the column families, keyed by column-family name. -/
structure DBData where
  defaultCol : MemStorage
  cols : List (String × MemStorage)

/-- rocksdb DB::cf_handle followed by reading that column: look the column
family up by name. -/
def DBData.findCol (d : DBData) (name : String) : Option MemStorage :=
  (d.cols.find? (fun p => p.1 == name)).map (fun p => p.2)

/-- Whether a column family of this name exists in the opened engine. -/
def DBData.hasCol (d : DBData) (name : String) : Bool :=
  (d.findCol name).isSome

/-- Point update of one column family (all other columns untouched). -/
def DBData.modifyCol (d : DBData) (name : String) (f : MemStorage → MemStorage) : DBData :=
  { d with cols := d.cols.map (fun p => if p.1 == name then (p.1, f p.2) else p) }

/-- rocksdb put_cf. -/
def DBData.putCf (d : DBData) (name : String) (k v : Bytes) : DBData :=
  d.modifyCol name (fun st => mapInsert st k v)

/-- rocksdb delete_cf. -/
def DBData.deleteCf (d : DBData) (name : String) (k : Bytes) : DBData :=
  d.modifyCol name (fun st => mapRemove st k)

/-- rocksdb get_cf (only called on handles obtained from cf_handle). -/
def DBData.getCf (d : DBData) (name : String) (k : Bytes) : Option Bytes :=
  mapGet ((d.findCol name).getD []) k

/-- src/rocksdb.rs get_column: cf_handle(map_columns(category)), NotFound when
the engine was not opened with that column. -/
def get_column (d : DBData) (category : DataCategory) : Except DatabaseError String :=
  if d.hasCol (map_columns category) then .ok (map_columns category)
  else .error .NotFound

/-- src/rocksdb.rs struct RocksDB: the optional engine handle (db_info), the
configuration and the canonical storage path. -/
structure RocksDB where
  db_info : Option DBData
  config : Config
  path : String

/-- src/rocksdb.rs BACKUP_PATH: the well-known backup directory. -/
def BACKUP_PATH : String := "backup_old_db"

/-- The filesystem collaborator: existing directories (each holding a whole
database dataset) keyed by path. -/
abbrev FileSystem := List (String × DBData)

/-- Directory lookup. -/
def fsGet (fs : FileSystem) (p : String) : Option DBData :=
  (fs.find? (fun e => e.1 == p)).map (fun e => e.2)

/-- src/rocksdb.rs path_exists (fs::metadata(path).is_ok()). -/
def path_exists (fs : FileSystem) (p : String) : Bool :=
  (fsGet fs p).isSome

/-- Drop every entry at a path. -/
def fsRemove (fs : FileSystem) (p : String) : FileSystem :=
  fs.filter (fun e => !(e.1 == p))

/-- Bind a path to a dataset (replacing any previous binding). -/
def fsSet (fs : FileSystem) (p : String) (d : DBData) : FileSystem :=
  (p, d) :: fsRemove fs p

/-- io::Error text for a missing source path. -/
def ENOENT_MSG : String := "No such file or directory (os error 2)"

/-- io::Error text for renaming onto an existing non-empty directory. -/
def ENOTEMPTY_MSG : String := "Directory not empty (os error 39)"

/-- fs::rename on directories, POSIX semantics: fails if the source is
missing; renaming a path onto itself succeeds and does nothing; renaming onto
an existing directory fails (every modelled directory is a database dataset,
hence non-empty on disk); otherwise the directory moves atomically. -/
def fsRename (fs : FileSystem) (src dst : String) : Except String FileSystem :=
  match fsGet fs src with
  | none => .error ENOENT_MSG
  | some d =>
    if src = dst then .ok fs
    else if path_exists fs dst then .error ENOTEMPTY_MSG
    else .ok (fsSet (fsRemove fs src) dst d)

/-- fs::remove_dir_all: recursive removal, fails when the path is missing. -/
def fsRemoveDirAll (fs : FileSystem) (p : String) : Except String FileSystem :=
  if path_exists fs p then .ok (fsRemove fs p) else .error ENOENT_MSG

/-- Environment oracle for the engine behaviour this layer cannot observe:
whether rocksdb::DB::open succeeds (it fails e.g. when another live handle
holds the path lock), together with the failure detail. -/
structure Env where
  openFailure : Option String

/-- The column-family names "col0".."col{n-1}" listed at open time. -/
def colNames (n : Nat) : List String :=
  (List.range n).map (fun c => "col" ++ toString c)

/-- create_missing_column_families: the listed columns that do not yet exist
are created empty. -/
def ensureCols (d : DBData) (names : List String) : DBData :=
  names.foldl
    (fun acc nm => if acc.hasCol nm then acc else { acc with cols := acc.cols ++ [(nm, [])] })
    d

/-- src/rocksdb.rs RocksDB::open: translate the tuning options (opaque here),
open the directory at the path — creating it if missing — with the configured
column families, and hand back the live wrapper. -/
def RocksDB.open (env : Env) (fs : FileSystem) (path : String) (config : Config) :
    Except DatabaseError (RocksDB × FileSystem) :=
  match env.openFailure with
  | some detail => .error (.Internal detail)
  | none =>
    let existing := (fsGet fs path).getD ⟨[], []⟩
    let data :=
      match config.category_num with
      | some n => ensureCols existing (colNames n)
      | none => existing
    .ok (⟨some data, config, path⟩, fsSet fs path data)

/-- src/rocksdb.rs RocksDB::open_default. -/
def RocksDB.open_default (env : Env) (fs : FileSystem) (path : String) :
    Except DatabaseError (RocksDB × FileSystem) :=
  RocksDB.open env fs path Config.defaultValue

/-- src/rocksdb.rs RocksDB::close: drop the engine handle. -/
def RocksDB.close (db : RocksDB) : RocksDB :=
  { db with db_info := none }

/-- Outcome of RocksDB::restore: the Rust Result together with the wrapper
state and the filesystem after the call; unwrap on a failed reopen is a Rust
panic, modelled as its own constructor. -/
inductive RestoreOutcome where
  | ok (db : RocksDB) (fs : FileSystem)
  | err (e : DatabaseError) (db : RocksDB) (fs : FileSystem)
  | panicked (db : RocksDB) (fs : FileSystem)

/-- Whether the restore call panicked. -/
def RestoreOutcome.isPanicked : RestoreOutcome → Bool
  | .panicked _ _ => true
  | _ => false

/-- Whether the restore call returned Err(Internal(..)). -/
def RestoreOutcome.isInternalErr : RestoreOutcome → Bool
  | .err (.Internal _) _ _ => true
  | _ => false

/-- Whether the restore call returned Ok(()). -/
def RestoreOutcome.isOk : RestoreOutcome → Bool
  | .ok _ _ => true
  | _ => false

/-- src/rocksdb.rs RocksDB::restore: close the handle, back the old directory
up unless a backup already exists, rename the new directory into place
(cleaning the backup up on success, renaming it back on failure), and reopen —
unwrapping the reopen result. -/
def RocksDB.restore (env : Env) (db0 : RocksDB) (fs : FileSystem)
    (new_db_path : String) : RestoreOutcome :=
  let db := RocksDB.close db0
  let backup := !(path_exists fs BACKUP_PATH)
  match (if backup then fsRename fs db.path BACKUP_PATH else .ok fs) with
  | .error e => .err (.Internal e) db fs
  | .ok fs1 =>
    match fsRename fs1 new_db_path db.path with
    | .ok fs2 =>
      match (if backup then fsRemoveDirAll fs2 BACKUP_PATH else .ok fs2) with
      | .error e => .err (.Internal e) db fs2
      | .ok fs3 =>
        match RocksDB.open env fs3 db.path db.config with
        | .error _ => .panicked db fs3
        | .ok (newdb, fs4) => .ok { db with db_info := newdb.db_info } fs4
    | .error e =>
      match (if backup then fsRename fs1 BACKUP_PATH db.path else .ok fs1) with
      | .error e2 => .err (.Internal e2) db fs1
      | .ok fs2 => .err (.Internal e) db fs2

/-- Lexicographic byte order used by the engine iterator. -/
def bytesLe : Bytes → Bytes → Bool
  | [], _ => true
  | _ :: _, [] => false
  | a :: ta, b :: tb => if a < b then true else if a = b then bytesLe ta tb else false

/-- Insertion into a key-sorted entry list. -/
def insertSortedEntry (p : Bytes × Bytes) : List (Bytes × Bytes) → List (Bytes × Bytes)
  | [] => [p]
  | q :: qs => if bytesLe p.1 q.1 then p :: q :: qs else q :: insertSortedEntry p qs

/-- The entries of one key space in the engine's ascending key order. -/
def sortEntries (s : MemStorage) : List (Bytes × Bytes) :=
  s.foldr insertSortedEntry []

/-- What RocksDB::iterator hands back: None when the handle is closed, an
entry sequence when live — or a Rust panic, since the code unwraps the
get_column result. -/
inductive IterResult where
  | noIter
  | iter (entries : List (Bytes × Bytes))
  | panicked
  deriving DecidableEq, Repr

/-- src/rocksdb.rs RocksDB::iterator. -/
def RocksDB.iterator (db : RocksDB) (category : Option DataCategory) : IterResult :=
  match db.db_info with
  | some data =>
    match category with
    | some cat =>
      match get_column data cat with
      | .error _ => .panicked
      | .ok col => .iter (sortEntries ((data.findCol col).getD []))
    | none => .iter (sortEntries data.defaultCol)
  | none => .noIter

/-- Shared body of get/get_batch/contains on a live handle: read the default
space, then — when a category is supplied — resolve its column and read that
instead. -/
def getInner (data : DBData) (category : Option DataCategory) (key : Bytes) :
    Except DatabaseError (Option Bytes) :=
  let value := mapGet data.defaultCol key
  match category with
  | some cat =>
    match get_column data cat with
    | .error e => .error e
    | .ok col => .ok (data.getCf col key)
  | none => .ok value

/-- src/rocksdb.rs Database::get for RocksDB: a closed handle reads as absent. -/
def RocksDB.get (db : RocksDB) (category : Option DataCategory) (key : Bytes) :
    Except DatabaseError (Option Bytes) :=
  match db.db_info with
  | some data => getInner data category key
  | none => .ok none

/-- The lookup loop of get_batch: per key the same read as get, pushed onto
the result vector; a failing read aborts the loop. -/
def getBatchGo (data : DBData) (category : Option DataCategory) :
    List Bytes → Except DatabaseError (List (Option Bytes))
  | [] => .ok []
  | k :: ks =>
    match getInner data category k with
    | .error e => .error e
    | .ok v =>
      match getBatchGo data category ks with
      | .error e => .error e
      | .ok vs => .ok (v :: vs)

/-- src/rocksdb.rs Database::get_batch for RocksDB: on a live handle the keys
are looked up one by one (errors propagate); on a closed handle the loop body
is skipped and the empty vector is returned. -/
def RocksDB.get_batch (db : RocksDB) (category : Option DataCategory)
    (keys : List Bytes) : Except DatabaseError (List (Option Bytes)) :=
  match db.db_info with
  | some data => getBatchGo data category keys
  | none => .ok []

/-- src/rocksdb.rs Database::contains for RocksDB. -/
def RocksDB.containsKey (db : RocksDB) (category : Option DataCategory)
    (key : Bytes) : Except DatabaseError Bool :=
  match db.db_info with
  | some data =>
    match getInner data category key with
    | .error e => .error e
    | .ok value => .ok value.isSome
  | none => .ok false

/-- src/rocksdb.rs Database::insert for RocksDB; the payload is the wrapper
after the call (a closed handle makes the write a silent no-op). -/
def RocksDB.insert (db : RocksDB) (category : Option DataCategory)
    (key value : Bytes) : Except DatabaseError RocksDB :=
  match db.db_info with
  | some data =>
    match category with
    | some cat =>
      match get_column data cat with
      | .error e => .error e
      | .ok col => .ok { db with db_info := some (data.putCf col key value) }
    | none =>
      .ok { db with db_info := some { data with defaultCol := mapInsert data.defaultCol key value } }
  | none => .ok db

/-- src/rocksdb.rs Database::remove for RocksDB; the payload is the wrapper
after the call. -/
def RocksDB.remove (db : RocksDB) (category : Option DataCategory)
    (key : Bytes) : Except DatabaseError RocksDB :=
  match db.db_info with
  | some data =>
    match category with
    | some cat =>
      match get_column data cat with
      | .error e => .error e
      | .ok col => .ok { db with db_info := some (data.deleteCf col key) }
    | none =>
      .ok { db with db_info := some { data with defaultCol := mapRemove data.defaultCol key } }
  | none => .ok db

/-- One entry of a rocksdb WriteBatch. -/
inductive BatchOp where
  | put (col : Option String) (key value : Bytes)
  | del (col : Option String) (key : Bytes)
  deriving DecidableEq, Repr

/-- One call against the engine handle that writes: an immediate single-key
delete, or the atomic write of a whole batch. -/
inductive EngineOp where
  | del (col : Option String) (key : Bytes)
  | writeBatch (ops : List BatchOp)
  deriving DecidableEq, Repr

/-- Apply one batch entry to the engine state. -/
def applyBatchOp (data : DBData) : BatchOp → DBData
  | .put (some col) k v => data.putCf col k v
  | .put none k v => { data with defaultCol := mapInsert data.defaultCol k v }
  | .del (some col) k => data.deleteCf col k
  | .del none k => { data with defaultCol := mapRemove data.defaultCol k }

/-- db.write(batch): the whole batch is applied as one engine call. -/
def applyBatch (data : DBData) (ops : List BatchOp) : DBData :=
  ops.foldl applyBatchOp data

/-- Result of a batch operation on the rocksdb backend: the Rust Result, the
wrapper after the call, and the write calls issued against the engine. -/
structure RocksBatchResult where
  result : Except DatabaseError Unit
  db : RocksDB
  ops : List EngineOp

/-- The WriteBatch-building loop of insert_batch: per pair, resolve the column
(errors propagate before anything is written) and record the put. -/
def buildPutBatch (data : DBData) (category : Option DataCategory) :
    List (Bytes × Bytes) → Except DatabaseError (List BatchOp)
  | [] => .ok []
  | p :: ps =>
    match category with
    | some cat =>
      match get_column data cat with
      | .error e => .error e
      | .ok col =>
        match buildPutBatch data category ps with
        | .error e => .error e
        | .ok rest => .ok (.put (some col) p.1 p.2 :: rest)
    | none =>
      match buildPutBatch data category ps with
      | .error e => .error e
      | .ok rest => .ok (.put none p.1 p.2 :: rest)

/-- src/rocksdb.rs Database::insert_batch for RocksDB: mismatched lengths are
rejected before the handle is even inspected; otherwise the puts are collected
into one WriteBatch and written in a single engine call. -/
def RocksDB.insert_batch (db : RocksDB) (category : Option DataCategory)
    (keys values : List Bytes) : RocksBatchResult :=
  if keys.length ≠ values.length then ⟨.error .InvalidData, db, []⟩
  else
    match db.db_info with
    | some data =>
      match buildPutBatch data category (keys.zip values) with
      | .error e => ⟨.error e, db, []⟩
      | .ok bops =>
        ⟨.ok (), { db with db_info := some (applyBatch data bops) }, [.writeBatch bops]⟩
    | none => ⟨.ok (), db, []⟩

/-- The loop of remove_batch: with a category each key's delete goes into the
WriteBatch; with no category each key is deleted immediately and individually
against the engine (db.delete), and the batch stays empty. -/
def rocksRemoveGo (category : Option DataCategory) (data : DBData)
    (batch : List BatchOp) (tr : List EngineOp) :
    List Bytes → Except DatabaseError (DBData × List BatchOp × List EngineOp)
  | [] => .ok (data, batch, tr)
  | k :: ks =>
    match category with
    | some cat =>
      match get_column data cat with
      | .error e => .error e
      | .ok col => rocksRemoveGo category data (batch ++ [.del (some col) k]) tr ks
    | none =>
      rocksRemoveGo category { data with defaultCol := mapRemove data.defaultCol k } batch
        (tr ++ [.del none k]) ks

/-- src/rocksdb.rs Database::remove_batch for RocksDB: run the loop, then
issue db.write(batch) — which is empty whenever no category was supplied. -/
def RocksDB.remove_batch (db : RocksDB) (category : Option DataCategory)
    (keys : List Bytes) : RocksBatchResult :=
  match db.db_info with
  | some data =>
    match rocksRemoveGo category data [] [] keys with
    | .error e => ⟨.error e, db, []⟩
    | .ok (data2, batch, tr) =>
      ⟨.ok (), { db with db_info := some (applyBatch data2 batch) }, tr ++ [.writeBatch batch]⟩
  | none => ⟨.ok (), db, []⟩

/-- Extensional equality of filesystems: the same dataset (or absence) at
every path. -/
def fsEquiv (a b : FileSystem) : Prop :=
  ∀ p, fsGet a p = fsGet b p

theorem findFilterCompat {α : Type} (p q : α → Bool)
    (h : ∀ a, p a = false → q a = false) :
    ∀ l : List α, (l.filter p).find? q = l.find? q := by
  intro l
  induction l with
  | nil => rfl
  | cons a t ih =>
    by_cases hp : p a = true
    · by_cases hq : q a = true
      · simp [List.filter_cons, hp, List.find?_cons, hq]
      · simp only [Bool.not_eq_true] at hq
        simp [List.filter_cons, hp, List.find?_cons, hq, ih]
    · simp only [Bool.not_eq_true] at hp
      have hq := h a hp
      simp [List.filter_cons, hp, List.find?_cons, hq, ih]

theorem findFilterNone {α : Type} (p q : α → Bool)
    (h : ∀ a, q a = true → p a = false) :
    ∀ l : List α, (l.filter p).find? q = none := by
  intro l
  induction l with
  | nil => rfl
  | cons a t ih =>
    by_cases hp : p a = true
    · have hq : q a = false := by
        by_cases hqa : q a = true
        · rw [h a hqa] at hp; exact absurd hp (by simp)
        · simpa using hqa
      simp [List.filter_cons, hp, List.find?_cons, hq, ih]
    · simp only [Bool.not_eq_true] at hp
      simp [List.filter_cons, hp, ih]

theorem mapGet_remove_self (s : MemStorage) (k : Bytes) :
    mapGet (mapRemove s k) k = none := by
  unfold mapGet mapRemove
  rw [findFilterNone]
  · rfl
  · intro a hq
    simp only [beq_iff_eq] at hq
    simp [hq]

theorem mapGet_remove_ne (s : MemStorage) (k q : Bytes) (h : q ≠ k) :
    mapGet (mapRemove s k) q = mapGet s q := by
  unfold mapGet mapRemove
  rw [findFilterCompat]
  intro a hp
  have ha : (a.1 == k) = true := by
    cases hb : (a.1 == k) with
    | true => rfl
    | false => rw [hb] at hp; exact absurd hp (by decide)
  show (a.1 == q) = false
  rw [beq_iff_eq.mp ha]
  exact beq_eq_false_iff_ne.mpr (fun hkq => h hkq.symm)

theorem mapGet_insert_self (s : MemStorage) (k v : Bytes) :
    mapGet (mapInsert s k v) k = some v := by
  simp [mapGet, mapInsert, List.find?_cons]

theorem mapGet_insert_ne (s : MemStorage) (k v q : Bytes) (h : q ≠ k) :
    mapGet (mapInsert s k v) q = mapGet s q := by
  have hq : (k == q) = false := by
    simp only [beq_eq_false_iff_ne, ne_eq]
    exact fun hkq => h hkq.symm
  calc mapGet (mapInsert s k v) q = mapGet (mapRemove s k) q := by
        simp [mapGet, mapInsert, List.find?_cons, hq]
    _ = mapGet s q := mapGet_remove_ne s k q h

theorem mapContains_eq_isSome (s : MemStorage) (k : Bytes) :
    mapContains s k = (mapGet s k).isSome := by
  simp [mapContains, mapGet]

theorem fsGet_remove_self (fs : FileSystem) (p : String) :
    fsGet (fsRemove fs p) p = none := by
  unfold fsGet fsRemove
  rw [findFilterNone]
  · rfl
  · intro a hq
    simp only [beq_iff_eq] at hq
    simp [hq]

theorem fsGet_remove_ne (fs : FileSystem) (p q : String) (h : q ≠ p) :
    fsGet (fsRemove fs p) q = fsGet fs q := by
  unfold fsGet fsRemove
  rw [findFilterCompat]
  intro a hp
  have ha : (a.1 == p) = true := by
    cases hb : (a.1 == p) with
    | true => rfl
    | false => rw [hb] at hp; exact absurd hp (by decide)
  show (a.1 == q) = false
  rw [beq_iff_eq.mp ha]
  exact beq_eq_false_iff_ne.mpr (fun hpq => h hpq.symm)

theorem fsGet_set_self (fs : FileSystem) (p : String) (d : DBData) :
    fsGet (fsSet fs p d) p = some d := by
  simp [fsGet, fsSet, List.find?_cons]

theorem fsGet_set_ne (fs : FileSystem) (p : String) (d : DBData) (q : String) (h : q ≠ p) :
    fsGet (fsSet fs p d) q = fsGet fs q := by
  have hq : (p == q) = false := by
    simp only [beq_eq_false_iff_ne, ne_eq]
    exact fun hpq => h hpq.symm
  calc fsGet (fsSet fs p d) q = fsGet (fsRemove fs p) q := by
        simp [fsGet, fsSet, List.find?_cons, hq]
    _ = fsGet fs q := fsGet_remove_ne fs p q h

theorem path_exists_iff (fs : FileSystem) (p : String) :
    path_exists fs p = true ↔ ∃ d, fsGet fs p = some d := by
  simp [path_exists, Option.isSome_iff_exists]

theorem path_exists_false_iff (fs : FileSystem) (p : String) :
    path_exists fs p = false ↔ fsGet fs p = none := by
  unfold path_exists
  cases h : fsGet fs p <;> simp [h]

theorem modifyEntryKeepsFst (name : String) (f : MemStorage → MemStorage)
    (p : String × MemStorage) :
    ((if p.1 == name then (p.1, f p.2) else p) : String × MemStorage).1 = p.1 := by
  by_cases hp : p.1 = name <;> simp [hp]

theorem findColMapAux (name : String) (f : MemStorage → MemStorage)
    (l : List (String × MemStorage)) :
    (l.map (fun p => if p.1 == name then (p.1, f p.2) else p)).find? (fun p => p.1 == name)
      = (l.find? (fun p => p.1 == name)).map (fun p => (p.1, f p.2)) := by
  rw [List.find?_map]
  have hcomp :
      ((fun p : String × MemStorage => p.1 == name) ∘
        fun p : String × MemStorage => if p.1 == name then (p.1, f p.2) else p)
        = fun p : String × MemStorage => p.1 == name := by
    funext p
    show (((if p.1 == name then (p.1, f p.2) else p) : String × MemStorage).1 == name)
        = (p.1 == name)
    rw [modifyEntryKeepsFst]
  rw [hcomp]
  cases h : l.find? (fun p : String × MemStorage => p.1 == name) with
  | none => rfl
  | some a =>
    have ha : a.1 = name := by simpa using List.find?_some h
    simp [ha]

theorem findColMapAuxNe (name q : String) (h : q ≠ name) (f : MemStorage → MemStorage)
    (l : List (String × MemStorage)) :
    (l.map (fun p => if p.1 == name then (p.1, f p.2) else p)).find? (fun p => p.1 == q)
      = l.find? (fun p => p.1 == q) := by
  rw [List.find?_map]
  have hcomp :
      ((fun p : String × MemStorage => p.1 == q) ∘
        fun p : String × MemStorage => if p.1 == name then (p.1, f p.2) else p)
        = fun p : String × MemStorage => p.1 == q := by
    funext p
    show (((if p.1 == name then (p.1, f p.2) else p) : String × MemStorage).1 == q)
        = (p.1 == q)
    rw [modifyEntryKeepsFst]
  rw [hcomp]
  cases hf : l.find? (fun p : String × MemStorage => p.1 == q) with
  | none => rfl
  | some a =>
    have ha : a.1 = q := by simpa using List.find?_some hf
    have hne : (a.1 == name) = false := by
      rw [ha]
      exact beq_eq_false_iff_ne.mpr h
    simp [hne]
    exact fun hy => absurd (ha.symm.trans hy) h

theorem findCol_modifyCol_self (d : DBData) (name : String) (f : MemStorage → MemStorage) :
    (d.modifyCol name f).findCol name = (d.findCol name).map f := by
  unfold DBData.findCol DBData.modifyCol
  rw [findColMapAux]
  cases h : d.cols.find? (fun p => p.1 == name) <;> simp

theorem findCol_modifyCol_ne (d : DBData) (name q : String) (h : q ≠ name)
    (f : MemStorage → MemStorage) :
    (d.modifyCol name f).findCol q = d.findCol q := by
  unfold DBData.findCol DBData.modifyCol
  rw [findColMapAuxNe name q h]

theorem hasCol_modifyCol_self (d : DBData) (name : String) (f : MemStorage → MemStorage) :
    (d.modifyCol name f).hasCol name = d.hasCol name := by
  unfold DBData.hasCol
  rw [findCol_modifyCol_self]
  cases h : d.findCol name <;> simp

/-- The in-memory key prefix of each category option. -/
def tagOf : Option DataCategory → Bytes
  | some .State => strB "state-"
  | some .Headers => strB "headers-"
  | some .Bodies => strB "bodies-"
  | some .Extra => strB "extra-"
  | some .Trace => strB "trace-"
  | some .AccountBloom => strB "account-bloom-"
  | some .Other => strB "other-"
  | none => []

theorem gen_key_eq_tag (c : Option DataCategory) (k : Bytes) :
    gen_key c k = tagOf c ++ k := by
  cases c with
  | none => rfl
  | some cat => cases cat <;> rfl

theorem gen_key_inj_category (c1 c2 : Option DataCategory) (k : Bytes)
    (h : c1 ≠ c2) : gen_key c1 k ≠ gen_key c2 k := by
  intro heq
  rw [gen_key_eq_tag, gen_key_eq_tag] at heq
  have htag : tagOf c1 = tagOf c2 := List.append_cancel_right heq
  have : c1 = c2 := by
    revert htag
    revert h
    cases c1 with
    | none => cases c2 with
      | none => intro h _; exact absurd rfl h
      | some cat2 => intro _ htag; exact absurd htag (by cases cat2 <;> decide)
    | some cat1 => cases c2 with
      | none => intro _ htag; exact absurd htag (by cases cat1 <;> decide)
      | some cat2 =>
        intro h htag
        exfalso
        apply h
        cases cat1 <;> cases cat2 <;> first | rfl | exact absurd htag (by decide)
  exact h this

theorem map_columns_inj (cat1 cat2 : DataCategory) (h : cat1 ≠ cat2) :
    map_columns cat1 ≠ map_columns cat2 := by
  intro heq
  apply h
  cases cat1 <;> cases cat2 <;> first | rfl | exact absurd heq (by decide)

theorem gen_keys_length (c : Option DataCategory) (keys : List Bytes) :
    (gen_keys c keys).length = keys.length := by
  simp [gen_keys]

theorem rocksRemoveGo_some_spec (data : DBData) (cat : DataCategory) (col : String)
    (hcol : get_column data cat = .ok col) :
    ∀ (ks : List Bytes) (batch : List BatchOp) (tr : List EngineOp),
      rocksRemoveGo (some cat) data batch tr ks
        = .ok (data, batch ++ ks.map (fun k => BatchOp.del (some col) k), tr) := by
  intro ks
  induction ks with
  | nil => intro batch tr; simp [rocksRemoveGo]
  | cons k t ih =>
    intro batch tr
    simp only [rocksRemoveGo, hcol, ih, List.map_cons]
    simp

theorem rocksRemoveGo_none_spec :
    ∀ (ks : List Bytes) (data : DBData) (batch : List BatchOp) (tr : List EngineOp),
      rocksRemoveGo none data batch tr ks
        = .ok (ks.foldl (fun d k => { d with defaultCol := mapRemove d.defaultCol k }) data,
               batch, tr ++ ks.map (fun k => EngineOp.del none k)) := by
  intro ks
  induction ks with
  | nil => intro data batch tr; simp [rocksRemoveGo]
  | cons k t ih =>
    intro data batch tr
    simp only [rocksRemoveGo, ih, List.foldl_cons, List.map_cons]
    simp

theorem getBatchGo_ok_spec (data : DBData) (category : Option DataCategory) :
    ∀ (ks : List Bytes) (vs : List (Option Bytes)),
      getBatchGo data category ks = .ok vs →
      vs.length = ks.length ∧
        ∀ i, i < ks.length → getInner data category (ks.getD i []) = .ok (vs.getD i none) := by
  intro ks
  induction ks with
  | nil =>
    intro vs h
    have hvs : vs = [] := by
      simp only [getBatchGo] at h
      injection h with h2
      exact h2.symm
    subst hvs
    exact ⟨rfl, fun i hi => absurd hi (by simp)⟩
  | cons k t ih =>
    intro vs h
    unfold getBatchGo at h
    cases hk : getInner data category k with
    | error e => rw [hk] at h; exact absurd h (by simp)
    | ok v =>
      rw [hk] at h
      cases ht : getBatchGo data category t with
      | error e => rw [ht] at h; exact absurd h (by simp)
      | ok vs2 =>
        rw [ht] at h
        have hvs : vs = v :: vs2 := by injection h with h2; exact h2.symm
        subst hvs
        obtain ⟨hl, hs⟩ := ih vs2 ht
        refine ⟨by simp [hl], ?_⟩
        intro i hi
        cases i with
        | zero => simpa using hk
        | succ j =>
          have hj : j < t.length := by simpa using hi
          simpa using hs j hj

theorem get_column_modify_self (data : DBData) (cat : DataCategory)
    (f : MemStorage → MemStorage) (hcol : data.hasCol (map_columns cat) = true) :
    get_column (data.modifyCol (map_columns cat) f) cat = .ok (map_columns cat) := by
  have h2 : (data.modifyCol (map_columns cat) f).hasCol (map_columns cat) = true := by
    rw [hasCol_modifyCol_self]; exact hcol
  unfold get_column
  rw [if_pos h2]

theorem getCf_modify_self (data : DBData) (name : String)
    (f : MemStorage → MemStorage) (k : Bytes) (hcol : data.hasCol name = true) :
    (data.modifyCol name f).getCf name k
      = mapGet (f ((data.findCol name).getD [])) k := by
  unfold DBData.getCf
  rw [findCol_modifyCol_self]
  obtain ⟨st, hst⟩ := Option.isSome_iff_exists.mp hcol
  rw [hst]
  rfl

theorem get_column_of_hasCol (data : DBData) (cat : DataCategory)
    (hcol : data.hasCol (map_columns cat) = true) :
    get_column data cat = .ok (map_columns cat) := by
  unfold get_column
  rw [if_pos hcol]

/-- Whether an engine call trace consists of exactly one batched write. -/
def isSingleBatchWrite : List EngineOp → Bool
  | [.writeBatch _] => true
  | _ => false

/-- A small dataset fixture: one default-space entry, one column family. -/
def dataW : DBData := ⟨[([7], [1])], [("col0", [])]⟩

/-- A dataset fixture with no column families. -/
def dataNoCols : DBData := ⟨[([7], [1])], []⟩

/-- Environment in which the engine open call succeeds. -/
def envW : Env := ⟨none⟩

/-- Environment in which the engine open call fails. -/
def envWFail : Env := ⟨some "IO error: lock unavailable"⟩

/-- An open store fixture over dataW. -/
def dbW : RocksDB := ⟨some dataW, Config.with_category_num (some 1), "db"⟩

/-- An open store fixture with no column families. -/
def dbWNoCols : RocksDB := ⟨some dataNoCols, Config.defaultValue, "db"⟩

/-- C5: for both backends and every category option, insert_batch called with
keys and values of unequal length fails with InvalidData, leaves the store
unchanged, and issues no engine write call — the length check runs before any
write is attempted. -/
theorem insert_batch_length_mismatch_invalid_data
    (db : RocksDB) (s : MemStorage) (category : Option DataCategory)
    (keys values : List Bytes) (h : keys.length ≠ values.length) :
    RocksDB.insert_batch db category keys values
      = ⟨.error .InvalidData, db, []⟩ ∧
    MemoryDB.insert_batch s category keys values = ⟨.error .InvalidData, s⟩ := by
  constructor
  · unfold RocksDB.insert_batch
    rw [if_pos h]
  · unfold MemoryDB.insert_batch
    simp only [gen_keys_length]
    rw [if_pos h]

/-- Witness for C5 at a concrete mismatched call. -/
theorem insert_batch_length_mismatch_invalid_data_witness :
    RocksDB.insert_batch dbW none [[1]] [] = ⟨.error .InvalidData, dbW, []⟩ ∧
    MemoryDB.insert_batch [] none [[1]] [] = ⟨.error .InvalidData, []⟩ :=
  insert_batch_length_mismatch_invalid_data dbW [] none [[1]] [] (by decide)

/-- C9 counterexample: on a closed store not every batch write returns
success — insert_batch with mismatched lengths still fails with InvalidData,
because the length check runs before the handle check. -/
theorem closed_store_insert_batch_invalid_data_cex :
    (RocksDB.insert_batch (RocksDB.close dbW) none [[1]] []).result
      = .error .InvalidData := by
  rfl

/-- C9 (amended): close is idempotent; after close every get/contains returns
absence, every insert/remove/remove_batch returns success while changing
nothing, and insert_batch with matching lengths likewise — but insert_batch
with mismatched lengths still fails with InvalidData even on a closed store. -/
theorem close_idempotent_reads_absent_writes_noop (db : RocksDB) :
    RocksDB.close (RocksDB.close db) = RocksDB.close db ∧
    (∀ c k, RocksDB.get (RocksDB.close db) c k = .ok none) ∧
    (∀ c k, RocksDB.containsKey (RocksDB.close db) c k = .ok false) ∧
    (∀ c k v, RocksDB.insert (RocksDB.close db) c k v = .ok (RocksDB.close db)) ∧
    (∀ c k, RocksDB.remove (RocksDB.close db) c k = .ok (RocksDB.close db)) ∧
    (∀ c keys, RocksDB.remove_batch (RocksDB.close db) c keys
        = ⟨.ok (), RocksDB.close db, []⟩) ∧
    (∀ c keys values, keys.length = values.length →
      RocksDB.insert_batch (RocksDB.close db) c keys values
        = ⟨.ok (), RocksDB.close db, []⟩) ∧
    (∀ c keys values, keys.length ≠ values.length →
      (RocksDB.insert_batch (RocksDB.close db) c keys values).result
        = .error .InvalidData) := by
  refine ⟨rfl, fun c k => rfl, fun c k => rfl, fun c k v => rfl, fun c k => rfl,
    fun c keys => rfl, ?_, ?_⟩
  · intro c keys values hlen
    unfold RocksDB.insert_batch
    rw [if_neg (fun hc => hc hlen)]
    rfl
  · intro c keys values hlen
    unfold RocksDB.insert_batch
    rw [if_pos hlen]

/-- Witness for C9 (amended) at a concrete closed store. -/
theorem close_idempotent_reads_absent_writes_noop_witness :
    RocksDB.get (RocksDB.close dbW) none [7] = .ok none ∧
    RocksDB.insert_batch (RocksDB.close dbW) none [[1]] [[2]]
      = ⟨.ok (), RocksDB.close dbW, []⟩ :=
  ⟨(close_idempotent_reads_absent_writes_noop dbW).2.1 none [7],
   (close_idempotent_reads_absent_writes_noop dbW).2.2.2.2.2.2.1 none [[1]] [[2]] rfl⟩

/-- C4 counterexample: iterate with a category whose backing namespace does
not exist in the opened engine panics (the code unwraps the failed column
lookup) instead of returning any of the three error kinds. -/
theorem iterator_missing_namespace_panics_cex :
    RocksDB.iterator dbWNoCols (some DataCategory.State) = .panicked := by
  rfl

/-- C4 (amended): every Result-returning operation yields exactly a success
value or one of the three error kinds NotFound, InvalidData, Internal; the
iterator, however, returns no Result: it yields None on a closed handle and an
entry sequence on a live one, and it panics when the supplied category has no
backing namespace in the opened engine. -/
theorem operations_error_taxonomy_iterator_panics :
    (∀ e : DatabaseError,
      e = .NotFound ∨ e = .InvalidData ∨ ∃ d, e = .Internal d) ∧
    (∀ db c, db.db_info = (none : Option DBData) →
      RocksDB.iterator db c = .noIter) ∧
    (∀ db data cat, db.db_info = some data →
      data.hasCol (map_columns cat) = false →
      RocksDB.iterator db (some cat) = .panicked) ∧
    (∀ db data cat, db.db_info = some data →
      data.hasCol (map_columns cat) = true →
      RocksDB.iterator db (some cat)
        = .iter (sortEntries ((data.findCol (map_columns cat)).getD []))) ∧
    (∀ db data, db.db_info = some data →
      RocksDB.iterator db none = .iter (sortEntries data.defaultCol)) := by
  refine ⟨?_, ?_, ?_, ?_, ?_⟩
  · intro e
    cases e with
    | NotFound => exact .inl rfl
    | InvalidData => exact .inr (.inl rfl)
    | Internal d => exact .inr (.inr ⟨d, rfl⟩)
  · intro db c h
    simp [RocksDB.iterator, h]
  · intro db data cat h hcol
    simp [RocksDB.iterator, h, get_column, hcol]
  · intro db data cat h hcol
    simp [RocksDB.iterator, h, get_column, hcol]
  · intro db data h
    simp [RocksDB.iterator, h]

/-- Witness for C4 (amended) at concrete stores. -/
theorem operations_error_taxonomy_iterator_panics_witness :
    RocksDB.iterator dbWNoCols (some DataCategory.Headers) = .panicked ∧
    RocksDB.iterator (RocksDB.close dbW) none = .noIter :=
  ⟨operations_error_taxonomy_iterator_panics.2.2.1 dbWNoCols dataNoCols
      DataCategory.Headers rfl rfl,
   operations_error_taxonomy_iterator_panics.2.1 (RocksDB.close dbW) none rfl⟩

/-- C6 counterexample: with no category, remove_batch is not applied as a
single batched engine write — the key is deleted immediately and individually,
and only an empty batch is then written. -/
theorem remove_batch_default_space_not_single_batch_cex :
    (RocksDB.remove_batch dbW none [[1]]).ops
      = [.del none [1], .writeBatch []] ∧
    isSingleBatchWrite (RocksDB.remove_batch dbW none [[1]]).ops = false := by
  decide

/-- C6 (amended): remove_batch applies all removals as a single batched engine
write when a category is supplied (the batch holds exactly the per-key
deletes); with no category each key is deleted immediately and individually
via db.delete before an empty batch write is issued, so the insert_batch
atomicity guarantee holds only for the category case. -/
theorem remove_batch_batched_only_with_category :
    (∀ db data cat keys, db.db_info = some data →
      data.hasCol (map_columns cat) = true →
      (RocksDB.remove_batch db (some cat) keys).ops
        = [.writeBatch (keys.map (fun k => BatchOp.del (some (map_columns cat)) k))]) ∧
    (∀ db data keys, db.db_info = some data →
      (RocksDB.remove_batch db none keys).ops
        = keys.map (fun k => EngineOp.del none k) ++ [.writeBatch []]) := by
  constructor
  · intro db data cat keys h hcol
    have hgc := get_column_of_hasCol data cat hcol
    simp only [RocksDB.remove_batch, h]
    rw [rocksRemoveGo_some_spec data cat (map_columns cat) hgc]
    simp
  · intro db data keys h
    simp only [RocksDB.remove_batch, h]
    rw [rocksRemoveGo_none_spec]
    simp

/-- Witness for C6 (amended) at concrete calls. -/
theorem remove_batch_batched_only_with_category_witness :
    (RocksDB.remove_batch dbW (some DataCategory.State) [[1], [2]]).ops
      = [.writeBatch [.del (some "col0") [1], .del (some "col0") [2]]] ∧
    (RocksDB.remove_batch dbW none [[2]]).ops = [.del none [2], .writeBatch []] := by
  constructor
  · have h := remove_batch_batched_only_with_category.1 dbW dataW
      DataCategory.State [[1], [2]] rfl rfl
    simpa using h
  · have h := remove_batch_batched_only_with_category.2 dbW dataW [[2]] rfl
    simpa using h

/-- C7 counterexample: on a closed persistent store with one input key,
get_batch succeeds with the empty list, whose length is not the input
length. -/
theorem get_batch_closed_store_empty_cex :
    RocksDB.get_batch (RocksDB.close dbW) none [[1]] = .ok [] ∧
    (([] : List (Option Bytes)).length ≠ ([[1]] : List Bytes).length) := by
  refine ⟨rfl, by decide⟩

/-- C7 (amended): a successful get_batch on the in-memory backend, or on an
open persistent store, returns one slot per input key with the i-th slot equal
to the lookup result of the i-th key; on a closed persistent store get_batch
instead returns success with the empty list regardless of the input length. -/
theorem get_batch_open_length_and_slots :
    (∀ s c keys vs, MemoryDB.get_batch s c keys = .ok vs →
      vs.length = keys.length ∧
        ∀ i, i < keys.length →
          MemoryDB.get s c (keys.getD i []) = .ok (vs.getD i none)) ∧
    (∀ db data c keys vs, db.db_info = some data →
      RocksDB.get_batch db c keys = .ok vs →
      vs.length = keys.length ∧
        ∀ i, i < keys.length →
          RocksDB.get db c (keys.getD i []) = .ok (vs.getD i none)) ∧
    (∀ db c keys, db.db_info = (none : Option DBData) →
      RocksDB.get_batch db c keys = .ok []) := by
  refine ⟨?_, ?_, ?_⟩
  · intro s c keys vs h
    have hvs : vs = (gen_keys c keys).map (fun key => mapGet s key) := by
      unfold MemoryDB.get_batch at h
      injection h with h2
      exact h2.symm
    subst hvs
    constructor
    · simp [gen_keys]
    · intro i hi
      have hlen2 : i < ((gen_keys c keys).map (fun key => mapGet s key)).length := by
        simpa [gen_keys] using hi
      rw [List.getD_eq_getElem _ none hlen2]
      unfold MemoryDB.get
      rw [List.getD_eq_getElem _ _ hi]
      simp [gen_keys]
  · intro db data c keys vs h h2
    unfold RocksDB.get_batch at h2
    rw [h] at h2
    obtain ⟨hl, hs⟩ := getBatchGo_ok_spec data c keys vs h2
    refine ⟨hl, ?_⟩
    intro i hi
    unfold RocksDB.get
    rw [h]
    exact hs i hi
  · intro db c keys h
    unfold RocksDB.get_batch
    rw [h]

/-- Witness for C7 (amended) at a concrete open store. -/
theorem get_batch_open_length_and_slots_witness :
    ([some [9], none] : List (Option Bytes)).length = ([[1], [2]] : List Bytes).length ∧
    RocksDB.get_batch (RocksDB.close dbW) none [[1], [2]] = .ok [] := by
  constructor
  · exact (get_batch_open_length_and_slots.1 [([1], [9])] none [[1], [2]]
      [some [9], none] (by decide)).1
  · exact get_batch_open_length_and_slots.2.2 (RocksDB.close dbW) none [[1], [2]] rfl

/-- C8 counterexample: the in-memory backend does not isolate the default
space from a named category's space across raw keys — after an insert under
(State, [120]), a default-space get at raw key "state-" ++ [120] observes that
entry (and before the insert it observed nothing). -/
theorem category_isolation_cross_key_collision_cex :
    MemoryDB.insert [] (some DataCategory.State) [120] [7]
      = .ok [(strB "state-" ++ [120], [7])] ∧
    MemoryDB.get [(strB "state-" ++ [120], [7])] none (strB "state-" ++ [120])
      = .ok (some [7]) ∧
    MemoryDB.get [] none (strB "state-" ++ [120]) = .ok none := by
  decide

/-- C8 (amended): operations never cross category option spaces at the same
raw key: distinct category options give distinct stored keys for any one raw
key, distinct categories always map to distinct engine column families, an
insert under one category option leaves get and contains at the same raw key
under any other unchanged, and a remove in one space leaves the other space's
entry at the same raw key intact.  (Across different raw keys the in-memory
backend is not isolated: a default-space key equal to a category prefix
concatenated with a key collides with that category's entry.) -/
theorem category_isolation_same_raw_key :
    (∀ c1 c2 : Option DataCategory, ∀ k : Bytes,
      c1 ≠ c2 → gen_key c1 k ≠ gen_key c2 k) ∧
    (∀ cat1 cat2 : DataCategory, cat1 ≠ cat2 →
      map_columns cat1 ≠ map_columns cat2) ∧
    (∀ s c1 c2 k v s2, c1 ≠ c2 →
      MemoryDB.insert s c2 k v = .ok s2 →
        MemoryDB.get s2 c1 k = MemoryDB.get s c1 k ∧
        MemoryDB.contains s2 c1 k = MemoryDB.contains s c1 k) ∧
    (∀ s c1 c2 k s2, c1 ≠ c2 →
      MemoryDB.remove s c1 k = .ok s2 →
        MemoryDB.get s2 c2 k = MemoryDB.get s c2 k) := by
  refine ⟨gen_key_inj_category, map_columns_inj, ?_, ?_⟩
  · intro s c1 c2 k v s2 hne h
    have hs2 : s2 = mapInsert s (gen_key c2 k) v := by
      unfold MemoryDB.insert at h
      injection h with h2
      exact h2.symm
    subst hs2
    have hkk := gen_key_inj_category c1 c2 k hne
    constructor
    · unfold MemoryDB.get
      rw [mapGet_insert_ne _ _ _ _ hkk]
    · unfold MemoryDB.contains
      rw [mapContains_eq_isSome, mapContains_eq_isSome,
        mapGet_insert_ne _ _ _ _ hkk]
  · intro s c1 c2 k s2 hne h
    have hs2 : s2 = mapRemove s (gen_key c1 k) := by
      unfold MemoryDB.remove at h
      injection h with h2
      exact h2.symm
    subst hs2
    have hkk := gen_key_inj_category c2 c1 k (fun he => hne he.symm)
    unfold MemoryDB.get
    rw [mapGet_remove_ne _ _ _ hkk]

/-- Witness for C8 (amended) at concrete categories and a concrete store. -/
theorem category_isolation_same_raw_key_witness :
    gen_key (some DataCategory.State) [1] ≠ gen_key none [1] ∧
    map_columns DataCategory.State ≠ map_columns DataCategory.Other ∧
    MemoryDB.get [(strB "state-" ++ [1], [9])] none [1]
      = MemoryDB.get [] none [1] := by
  refine ⟨category_isolation_same_raw_key.1 (some DataCategory.State) none [1]
      (by decide),
    category_isolation_same_raw_key.2.1 DataCategory.State DataCategory.Other
      (by decide), ?_⟩
  have h := (category_isolation_same_raw_key.2.2.1 [] none (some DataCategory.State)
      [1] [9] [(strB "state-" ++ [1], [9])] (by decide) (by decide)).1
  simpa using h

/-- C10: insert(C,k,v) followed by get(C,k) returns v, and remove(C,k)
followed by get(C,k) returns absence — on the in-memory backend for every
category option, and on an open persistent store whose engine carries a
backing namespace for the supplied category (without one, insert and get both
fail with NotFound rather than round-tripping). -/
theorem insert_get_remove_roundtrip :
    (∀ s c k v s2, MemoryDB.insert s c k v = .ok s2 →
      MemoryDB.get s2 c k = .ok (some v)) ∧
    (∀ s c k s2, MemoryDB.remove s c k = .ok s2 →
      MemoryDB.get s2 c k = .ok none) ∧
    (∀ db data c k v db2, db.db_info = some data →
      (∀ cat, c = some cat → data.hasCol (map_columns cat) = true) →
      RocksDB.insert db c k v = .ok db2 →
      RocksDB.get db2 c k = .ok (some v)) ∧
    (∀ db data c k db2, db.db_info = some data →
      (∀ cat, c = some cat → data.hasCol (map_columns cat) = true) →
      RocksDB.remove db c k = .ok db2 →
      RocksDB.get db2 c k = .ok none) := by
  refine ⟨?_, ?_, ?_, ?_⟩
  · intro s c k v s2 h
    have hs2 : s2 = mapInsert s (gen_key c k) v := by
      unfold MemoryDB.insert at h
      injection h with h2
      exact h2.symm
    subst hs2
    unfold MemoryDB.get
    rw [mapGet_insert_self]
  · intro s c k s2 h
    have hs2 : s2 = mapRemove s (gen_key c k) := by
      unfold MemoryDB.remove at h
      injection h with h2
      exact h2.symm
    subst hs2
    unfold MemoryDB.get
    rw [mapGet_remove_self]
  · intro db data c k v db2 h hcol hins
    cases c with
    | none =>
      simp only [RocksDB.insert, h] at hins
      injection hins with h2
      subst h2
      simp only [RocksDB.get, getInner, mapGet_insert_self]
    | some cat =>
      have hc := hcol cat rfl
      have hgc := get_column_of_hasCol data cat hc
      simp only [RocksDB.insert, h, hgc] at hins
      injection hins with h2
      subst h2
      have hgc3 := get_column_modify_self data cat (fun st => mapInsert st k v) hc
      have hcf := getCf_modify_self data (map_columns cat)
        (fun st => mapInsert st k v) k hc
      simp only [RocksDB.get, getInner, DBData.putCf, hgc3, hcf, mapGet_insert_self]
  · intro db data c k db2 h hcol hrem
    cases c with
    | none =>
      simp only [RocksDB.remove, h] at hrem
      injection hrem with h2
      subst h2
      simp only [RocksDB.get, getInner, mapGet_remove_self]
    | some cat =>
      have hc := hcol cat rfl
      have hgc := get_column_of_hasCol data cat hc
      simp only [RocksDB.remove, h, hgc] at hrem
      injection hrem with h2
      subst h2
      have hgc3 := get_column_modify_self data cat (fun st => mapRemove st k) hc
      have hcf := getCf_modify_self data (map_columns cat)
        (fun st => mapRemove st k) k hc
      simp only [RocksDB.get, getInner, DBData.deleteCf, hgc3, hcf, mapGet_remove_self]

/-- The dbW fixture after inserting key [1] with value [9] into the State
column family. -/
def dbWIns : RocksDB :=
  ⟨some ⟨[([7], [1])], [("col0", [([1], [9])])]⟩,
    Config.with_category_num (some 1), "db"⟩

/-- Witness for C10 at a concrete category, key and value. -/
theorem insert_get_remove_roundtrip_witness :
    MemoryDB.get [(strB "state-" ++ [1], [9])] (some DataCategory.State) [1]
      = .ok (some [9]) ∧
    RocksDB.get dbWIns (some DataCategory.State) [1] = .ok (some [9]) := by
  constructor
  · exact insert_get_remove_roundtrip.1 [] (some DataCategory.State) [1] [9]
      [(strB "state-" ++ [1], [9])] (by decide)
  · exact insert_get_remove_roundtrip.2.2.1 dbW dataW (some DataCategory.State)
      [1] [9] dbWIns rfl (fun cat hcat => by cases hcat; rfl) rfl

/-- Filesystem fixture with a stale backup directory present. -/
def fsW1 : FileSystem :=
  [("db", dataW), ("backup_old_db", dataNoCols), ("new", dataNoCols)]

/-- C1 counterexample: with a stale backup present and new_db_path equal to
the store's own canonical path, restore does not abort with Internal — the
code never checks for the conflicting backup, it only skips the backup step;
the rename of the canonical path onto itself succeeds as a POSIX no-op, the
reopen succeeds, and restore returns Ok with the store and filesystem (stale
backup included) unchanged. -/
theorem restore_with_existing_backup_self_path_ok_cex :
    RocksDB.restore envW dbW fsW1 "db" = .ok dbW fsW1 ∧
    (RocksDB.restore envW dbW fsW1 "db").isInternalErr = false := by
  refine ⟨rfl, rfl⟩

/-- C1 (amended): when a directory already exists at the well-known backup
path, restore aborts with an Internal error, leaves the existing backup
directory untouched and performs no rename — the filesystem after the call is
exactly the one before — for every new_db_path other than the store's own
canonical path (the attempted rename of new_db_path onto the still-occupied
canonical path fails).  When new_db_path IS the canonical path the code does
not abort: the self-rename succeeds as a POSIX no-op and restore reopens and
returns success, leaving the stale backup in place. -/
theorem restore_with_existing_backup_aborts_internal :
    (∀ (env : Env) (db : RocksDB) (fs : FileSystem) (new_db_path : String),
      path_exists fs BACKUP_PATH = true →
      path_exists fs db.path = true →
      new_db_path ≠ db.path →
      ∃ d, RocksDB.restore env db fs new_db_path
        = .err (.Internal d) (RocksDB.close db) fs) ∧
    (∀ (env : Env) (db : RocksDB) (fs : FileSystem),
      env.openFailure = none →
      path_exists fs BACKUP_PATH = true →
      path_exists fs db.path = true →
      ∃ db2 fs2, RocksDB.restore env db fs db.path = .ok db2 fs2) := by
  constructor
  · intro env db fs new_db_path hb hp hne
    cases hfg : fsGet fs new_db_path with
    | none =>
      refine ⟨ENOENT_MSG, ?_⟩
      simp only [RocksDB.restore, RocksDB.close, hb, Bool.not_true, Bool.false_eq_true,
        if_false, fsRename, hfg]
    | some dd =>
      refine ⟨ENOTEMPTY_MSG, ?_⟩
      simp only [RocksDB.restore, RocksDB.close, hb, Bool.not_true, Bool.false_eq_true,
        if_false, fsRename, hfg, if_neg hne, hp, if_true]
  · intro env db fs henv hb hp
    obtain ⟨d0, hd0⟩ := (path_exists_iff fs db.path).mp hp
    have hr : fsRename fs db.path db.path = .ok fs := by
      simp [fsRename, hd0]
    simp only [RocksDB.restore, RocksDB.close, hb, Bool.not_true, Bool.false_eq_true,
      if_false, hr, RocksDB.open, henv]
    exact ⟨_, _, rfl⟩

/-- Witness for C1 (amended), both branches at a concrete store and
filesystem. -/
theorem restore_with_existing_backup_aborts_internal_witness :
    (∃ d, RocksDB.restore envW dbW fsW1 "new"
      = .err (.Internal d) (RocksDB.close dbW) fsW1) ∧
    (∃ db2 fs2, RocksDB.restore envW dbW fsW1 "db" = .ok db2 fs2) :=
  ⟨restore_with_existing_backup_aborts_internal.1 envW dbW fsW1 "new" rfl rfl
      (by decide),
   restore_with_existing_backup_aborts_internal.2 envW dbW fsW1 rfl rfl rfl⟩

/-- Filesystem fixture holding only the store's canonical directory. -/
def fsW2 : FileSystem := [("db", dataW)]

/-- C2 counterexample: after a failed step-3 rename the rollback does restore
the on-disk state and restore returns Internal with the original detail, but
the store's data is NOT readable through the same store handle afterwards:
the handle stays closed, so a key readable before the call reads as absent
after it. -/
theorem restore_rollback_leaves_handle_closed_cex :
    RocksDB.restore envW dbW fsW2 "new"
      = .err (.Internal ENOENT_MSG) (RocksDB.close dbW) fsW2 ∧
    RocksDB.get dbW none [7] = .ok (some [1]) ∧
    RocksDB.get (RocksDB.close dbW) none [7] = .ok none := by
  refine ⟨rfl, rfl, rfl⟩

/-- C2 (amended): if the rename of new_db_path onto the canonical path fails,
restore renames the backup directory back, returns Internal with the original
failure detail, and the on-disk state is exactly as before the attempt — but
the store handle remains closed (restore returns before reopening), so reads
through the same handle return absence until the store is reopened. -/
theorem restore_rollback_disk_restored_handle_closed
    (env : Env) (db : RocksDB) (fs : FileSystem) (new_db_path : String)
    (hb : path_exists fs BACKUP_PATH = false)
    (hp : path_exists fs db.path = true)
    (hn : path_exists fs new_db_path = false)
    (hnb : new_db_path ≠ BACKUP_PATH) :
    ∃ fs2, RocksDB.restore env db fs new_db_path
        = .err (.Internal ENOENT_MSG) (RocksDB.close db) fs2 ∧
      fsEquiv fs2 fs ∧
      (∀ c k, RocksDB.get (RocksDB.close db) c k = .ok none) := by
  obtain ⟨d0, hd0⟩ := (path_exists_iff fs db.path).mp hp
  have hpb : db.path ≠ BACKUP_PATH := by
    intro he
    rw [he] at hp
    rw [hp] at hb
    exact absurd hb (by decide)
  have hnp : new_db_path ≠ db.path := by
    intro he
    rw [he] at hn
    rw [hn] at hp
    exact absurd hp (by decide)
  have hs1 : fsRename fs db.path BACKUP_PATH
      = .ok (fsSet (fsRemove fs db.path) BACKUP_PATH d0) := by
    simp [fsRename, hd0, hpb, hb]
  have h2 : fsGet (fsSet (fsRemove fs db.path) BACKUP_PATH d0) new_db_path = none := by
    rw [fsGet_set_ne _ _ _ _ hnb, fsGet_remove_ne _ _ _ hnp]
    exact (path_exists_false_iff fs new_db_path).mp hn
  have hs2 : fsRename (fsSet (fsRemove fs db.path) BACKUP_PATH d0) new_db_path db.path
      = .error ENOENT_MSG := by
    simp only [fsRename, h2]
  have h3get : fsGet (fsSet (fsRemove fs db.path) BACKUP_PATH d0) BACKUP_PATH
      = some d0 := fsGet_set_self _ _ _
  have h3ex : path_exists (fsSet (fsRemove fs db.path) BACKUP_PATH d0) db.path
      = false := by
    apply (path_exists_false_iff _ _).mpr
    rw [fsGet_set_ne _ _ _ _ hpb, fsGet_remove_self]
  have hs3 : fsRename (fsSet (fsRemove fs db.path) BACKUP_PATH d0) BACKUP_PATH db.path
      = .ok (fsSet (fsRemove (fsSet (fsRemove fs db.path) BACKUP_PATH d0) BACKUP_PATH)
          db.path d0) := by
    simp [fsRename, h3get, Ne.symm hpb, h3ex]
  refine ⟨fsSet (fsRemove (fsSet (fsRemove fs db.path) BACKUP_PATH d0) BACKUP_PATH)
      db.path d0, ?_, ?_, fun c k => rfl⟩
  · simp only [RocksDB.restore, RocksDB.close, hb, Bool.not_false, if_true, hs1,
      hs2, hs3]
  · intro p
    by_cases hpp : p = db.path
    · subst hpp
      rw [fsGet_set_self]
      exact hd0.symm
    · rw [fsGet_set_ne _ _ _ _ hpp]
      by_cases hpb2 : p = BACKUP_PATH
      · subst hpb2
        rw [fsGet_remove_self]
        exact ((path_exists_false_iff fs BACKUP_PATH).mp hb).symm
      · rw [fsGet_remove_ne _ _ _ hpb2, fsGet_set_ne _ _ _ _ hpb2,
          fsGet_remove_ne _ _ _ hpp]

/-- Witness for C2 (amended) at a concrete store and filesystem. -/
theorem restore_rollback_disk_restored_handle_closed_witness :
    ∃ fs2, RocksDB.restore envW dbW fsW2 "new"
        = .err (.Internal ENOENT_MSG) (RocksDB.close dbW) fs2 ∧
      fsEquiv fs2 fsW2 ∧
      (∀ c k, RocksDB.get (RocksDB.close dbW) c k = .ok none) :=
  restore_rollback_disk_restored_handle_closed envW dbW fsW2 "new" rfl rfl rfl
    (by decide)

/-- Filesystem fixture with the canonical directory and a new-database
directory, no backup. -/
def fsW3 : FileSystem := [("db", dataW), ("new", dataNoCols)]

/-- C3 counterexample: when the final reopen fails, restore does not return
the failure as an Internal error — it panics (the code unwraps the open
result). -/
theorem restore_reopen_failure_panics_cex :
    (RocksDB.restore envWFail dbW fsW3 "new").isPanicked = true ∧
    (RocksDB.restore envWFail dbW fsW3 "new").isInternalErr = false := by
  refine ⟨rfl, rfl⟩

/-- C3 (amended): if the final reopening of the engine handle during restore
fails, the restore call panics — the open result is unwrapped — instead of
returning the failure to the caller as an Internal error. -/
theorem restore_reopen_failure_panics
    (env : Env) (db : RocksDB) (fs : FileSystem) (new_db_path : String)
    (d : String)
    (henv : env.openFailure = some d)
    (hb : path_exists fs BACKUP_PATH = false)
    (hp : path_exists fs db.path = true)
    (hn : path_exists fs new_db_path = true)
    (hnp : new_db_path ≠ db.path) :
    ∃ fs3, RocksDB.restore env db fs new_db_path
        = .panicked (RocksDB.close db) fs3 := by
  obtain ⟨d0, hd0⟩ := (path_exists_iff fs db.path).mp hp
  obtain ⟨nd, hnd⟩ := (path_exists_iff fs new_db_path).mp hn
  have hpb : db.path ≠ BACKUP_PATH := by
    intro he
    rw [he] at hp
    rw [hp] at hb
    exact absurd hb (by decide)
  have hnb : new_db_path ≠ BACKUP_PATH := by
    intro he
    rw [he] at hn
    rw [hn] at hb
    exact absurd hb (by decide)
  have hs1 : fsRename fs db.path BACKUP_PATH
      = .ok (fsSet (fsRemove fs db.path) BACKUP_PATH d0) := by
    simp [fsRename, hd0, hpb, hb]
  have h2 : fsGet (fsSet (fsRemove fs db.path) BACKUP_PATH d0) new_db_path
      = some nd := by
    rw [fsGet_set_ne _ _ _ _ hnb, fsGet_remove_ne _ _ _ hnp]
    exact hnd
  have h2ex : path_exists (fsSet (fsRemove fs db.path) BACKUP_PATH d0) db.path
      = false := by
    apply (path_exists_false_iff _ _).mpr
    rw [fsGet_set_ne _ _ _ _ hpb, fsGet_remove_self]
  have hs2 : fsRename (fsSet (fsRemove fs db.path) BACKUP_PATH d0) new_db_path db.path
      = .ok (fsSet (fsRemove (fsSet (fsRemove fs db.path) BACKUP_PATH d0) new_db_path)
          db.path nd) := by
    simp [fsRename, h2, hnp, h2ex]
  have h3get : fsGet (fsSet (fsRemove (fsSet (fsRemove fs db.path) BACKUP_PATH d0)
        new_db_path) db.path nd) BACKUP_PATH = some d0 := by
    rw [fsGet_set_ne _ _ _ _ (Ne.symm hpb), fsGet_remove_ne _ _ _ (Ne.symm hnb),
      fsGet_set_self]
  have h3ex : path_exists (fsSet (fsRemove (fsSet (fsRemove fs db.path) BACKUP_PATH d0)
        new_db_path) db.path nd) BACKUP_PATH = true := by
    apply (path_exists_iff _ _).mpr
    exact ⟨d0, h3get⟩
  have hs3 : fsRemoveDirAll (fsSet (fsRemove (fsSet (fsRemove fs db.path) BACKUP_PATH d0)
        new_db_path) db.path nd) BACKUP_PATH
      = .ok (fsRemove (fsSet (fsRemove (fsSet (fsRemove fs db.path) BACKUP_PATH d0)
          new_db_path) db.path nd) BACKUP_PATH) := by
    simp [fsRemoveDirAll, h3ex]
  have hopen : ∀ fsx : FileSystem, RocksDB.open env fsx db.path db.config
      = .error (.Internal d) := by
    intro fsx
    simp [RocksDB.open, henv]
  refine ⟨fsRemove (fsSet (fsRemove (fsSet (fsRemove fs db.path) BACKUP_PATH d0)
      new_db_path) db.path nd) BACKUP_PATH, ?_⟩
  simp only [RocksDB.restore, RocksDB.close, hb, Bool.not_false, if_true, hs1, hs2,
    hs3, hopen]

/-- Witness for C3 (amended) at a concrete store, filesystem and failing
environment. -/
theorem restore_reopen_failure_panics_witness :
    ∃ fs3, RocksDB.restore envWFail dbW fsW3 "new"
        = .panicked (RocksDB.close dbW) fs3 :=
  restore_reopen_failure_panics envWFail dbW fsW3 "new" "IO error: lock unavailable"
    rfl rfl rfl rfl (by decide)
